import Mathlib

/-!
Verification development for the options-scalper position tracker.

The source program (`src/fo.py`) keeps a ledger of option trades as a list
of records.  Its core operations are:

* the "Add Trade" handler, which builds a `Trade` record from the form
  inputs and appends it to the ledger (`save_trade`);
* `update_trade_exit`, which scans the ledger for the first record whose
  `id` matches and whose `status` is `"OPEN"`, and closes it in place
  (status `"CLOSED"`, stored exit price, P&L `(exit - entry) * lot_size *
  lots`), emitting a toast with the closure data; on a missing or
  already-closed id it silently changes nothing;
* `auto_close_if_hit`, which walks the ledger by position, and for each
  open trade whose symbol has an LTP entry computes the target / stop hit
  flags (the CALL and PUT branches of the source compute the identical
  conditions) and, when auto-close is enabled, closes the trade through
  `update_trade_exit` at the configured target (preferred) or stop price.

Premium-valued fields (Python floats) are modelled as rationals, the
integer fields as integers, and the symbol→LTP dictionary as an
association list.  The spec's error vocabulary (`ValidationError`,
`NotFoundError`, `AlreadyClosedError`) and its stand-alone evaluator have
no counterpart in the source and are modelled separately from the spec's
words; every definition below states which of the two it comes from.
-/

set_option autoImplicit false

namespace OptionsScalper

/-- The `Trade` dataclass of the source, field for field.  `option_type`
is `"CE"`/`"PE"`, `status` is `"OPEN"`/`"CLOSED"`, premiums are modelled
as rationals. -/
structure Trade where
  id : String
  ts : String
  symbol : String
  option_type : String
  strike : ℚ
  expiry : String
  lot_size : ℤ
  lots : ℤ
  entry : ℚ
  target : ℚ
  stop : ℚ
  auto_close : Bool
  status : String
  exit_price : ℚ
  pnl : ℚ
deriving DecidableEq, Repr

/-- The closure data surfaced by the toast in `update_trade_exit`
(symbol, strike, option type, exit price, P&L). -/
structure CloseEvent where
  symbol : String
  strike : ℚ
  option_type : String
  exit_price : ℚ
  pnl : ℚ
deriving DecidableEq, Repr

/-- The in-place mutation performed on the matched record inside
`update_trade_exit`: status becomes `"CLOSED"`, the exit price is stored,
and the P&L is `(exit_price - entry) * lot_size * lots`.  (The source also
computes a CE/PE `sign` on line 74 but never uses it.) -/
def closeTrade (t : Trade) (px : ℚ) : Trade :=
  { t with
    status := "CLOSED"
    exit_price := px
    pnl := (px - t.entry) * (t.lot_size : ℚ) * (t.lots : ℚ) }

/-- The toast payload emitted by `update_trade_exit` for the matched
record. -/
def mkEvent (t : Trade) (px : ℚ) : CloseEvent :=
  { symbol := t.symbol
    strike := t.strike
    option_type := t.option_type
    exit_price := px
    pnl := (px - t.entry) * (t.lot_size : ℚ) * (t.lots : ℚ) }

/-- `update_trade_exit` from the source: scan the ledger for the first
record with the given id and status `"OPEN"`, close it and emit the
toast, then stop (`break`).  When no record matches, the ledger is
returned unchanged and no toast is emitted. -/
def update_trade_exit : List Trade → String → ℚ → List Trade × Option CloseEvent
  | [], _, _ => ([], none)
  | t :: ts, tid, px =>
    if t.id = tid ∧ t.status = "OPEN" then
      (closeTrade t px :: ts, some (mkEvent t px))
    else
      match update_trade_exit ts tid px with
      | (ts1, ev) => (t :: ts1, ev)

/-- The target / stop hit flags of `auto_close_if_hit`, including the
source's CE/PE branch (both arms compute the same two conditions). -/
def hitConds (t : Trade) (p : ℚ) : Bool × Bool :=
  if t.option_type = "CE" then
    (decide (p ≥ t.target), decide (t.stop > 0 ∧ p ≤ t.stop))
  else
    (decide (p ≥ t.target), decide (t.stop > 0 ∧ p ≤ t.stop))

/-- One iteration of the `for t in st.session_state.trades` loop of
`auto_close_if_hit`, acting on the trade at position `i` of the current
ledger: skip non-open trades and symbols without an LTP entry; otherwise,
when auto-close is enabled, close through `update_trade_exit` at the
configured target (checked first) or stop price. -/
def autoCloseStep (ltp : List (String × ℚ)) (L : List Trade) (i : ℕ) : List Trade :=
  match L[i]? with
  | none => L
  | some t =>
    if t.status ≠ "OPEN" then L
    else
      match ltp.lookup t.symbol with
      | none => L
      | some p =>
        if t.auto_close then
          if (hitConds t p).1 then (update_trade_exit L t.id t.target).1
          else if (hitConds t p).2 then (update_trade_exit L t.id t.stop).1
          else L
        else L

/-- `auto_close_if_hit` from the source: iterate the loop body over every
position of the ledger (the list's length never changes, so iterating
over the initial indices is the Python iteration order). -/
def auto_close_if_hit (L : List Trade) (ltp : List (String × ℚ)) : List Trade :=
  (List.range L.length).foldl (autoCloseStep ltp) L

/-- Derived single-trade description of what one pass of
`auto_close_if_hit` does to a trade (proved below to characterise the
whole pass when ids are distinct). -/
def autoCloseOne (ltp : List (String × ℚ)) (t : Trade) : Trade :=
  if t.status = "OPEN" then
    match ltp.lookup t.symbol with
    | none => t
    | some p =>
      if t.auto_close then
        if (hitConds t p).1 then closeTrade t t.target
        else if (hitConds t p).2 then closeTrade t t.stop
        else t
      else t
  else t

/-- Python's `str.strip()` (ASCII whitespace), written over the string's
character list so that it evaluates by kernel reduction. -/
def pyStrip (s : String) : String :=
  String.mk (((s.data.dropWhile Char.isWhitespace).reverse.dropWhile
    Char.isWhitespace).reverse)

/-- Python's `str.upper()` (ASCII), written over the character list. -/
def pyUpper (s : String) : String :=
  String.mk (s.data.map Char.toUpper)

/-- The form inputs consumed by the "Add Trade" handler. -/
structure TradeForm where
  symbol : String
  option_type : String
  strike : ℚ
  expiry : String
  lot_size : ℤ
  lots : ℤ
  entry : ℚ
  target : ℚ
  stop : ℚ
  auto_close : Bool
deriving DecidableEq, Repr

/-- The `Trade` record built by the "Add Trade" handler: symbol trimmed
and upper-cased, expiry trimmed, status `"OPEN"`, exit price and P&L
zero.  `newId` is the freshly drawn `str(uuid4())[:8]` value and `newTs`
the creation timestamp, both supplied by the environment. -/
def mkTrade (newId newTs : String) (f : TradeForm) : Trade :=
  { id := newId
    ts := newTs
    symbol := pyUpper (pyStrip f.symbol)
    option_type := f.option_type
    strike := f.strike
    expiry := pyStrip f.expiry
    lot_size := f.lot_size
    lots := f.lots
    entry := f.entry
    target := f.target
    stop := f.stop
    auto_close := f.auto_close
    status := "OPEN"
    exit_price := 0
    pnl := 0 }

/-- `save_trade` from the source: append the record to the ledger. -/
def save_trade (L : List Trade) (t : Trade) : List Trade :=
  L ++ [t]

/-- The whole "Add Trade" handler: build the record and append it. -/
def addTrade (L : List Trade) (newId newTs : String) (f : TradeForm) : List Trade :=
  save_trade L (mkTrade newId newTs f)

/-- A sequence of "Add Trade" calls, each with its drawn id, timestamp
and form inputs. -/
def createSeq (L : List Trade) (reqs : List (String × String × TradeForm)) : List Trade :=
  reqs.foldl (fun M r => addTrade M r.1 r.2.1 r.2.2) L

/-- The error vocabulary of the specification (section 7). -/
inductive LedgerError where
  | validation
  | notFound
  | alreadyClosed
deriving DecidableEq, Repr

/-- Modelled from the spec: the error classification of the `close`
operation (sections 4.1 and 7) — `NotFoundError` when no position carries
the id, `AlreadyClosedError` when the position is not open.  The source
has no such errors: `update_trade_exit` surfaces both failures as a
silent no-op. -/
def closeError (L : List Trade) (tid : String) : Option LedgerError :=
  match L.find? (fun t => t.id == tid) with
  | none => some LedgerError.notFound
  | some t => if t.status = "OPEN" then none else some LedgerError.alreadyClosed

/-- Modelled from the spec: the validated `create` operation of section
4.1, which fails with `ValidationError` when the symbol is empty after
trimming, the option type is not CALL/PUT (CE/PE in the source's
vocabulary), a premium or the strike is negative, or a lot count is below
one.  The source has no such operation: validation of the numeric fields
lives in the excluded form widgets and symbol emptiness is checked
nowhere. -/
def create_spec (L : List Trade) (newId newTs : String) (f : TradeForm) :
    Except LedgerError (List Trade) :=
  if pyStrip f.symbol = "" then Except.error LedgerError.validation
  else if ¬(f.option_type = "CE" ∨ f.option_type = "PE") then Except.error LedgerError.validation
  else if f.strike < 0 ∨ f.entry < 0 ∨ f.target < 0 ∨ f.stop < 0 then
    Except.error LedgerError.validation
  else if f.lot_size < 1 ∨ f.lots < 1 then Except.error LedgerError.validation
  else Except.ok (addTrade L newId newTs f)

/-- Modelled from the spec: the per-position trigger decision of the
stand-alone evaluator of section 4.2 (the source merges evaluation and
application inside `auto_close_if_hit`).  Considers only auto-close
enabled open positions whose symbol has an LTP entry, emits the
configured target premium when `ltp ≥ target` and otherwise the
configured stop premium when `stop > 0 ∧ ltp ≤ stop`. -/
def optTrig (ltp : List (String × ℚ)) (t : Trade) : Option (String × ℚ) :=
  if t.auto_close ∧ t.status = "OPEN" then
    match ltp.lookup t.symbol with
    | none => none
    | some p =>
      if p ≥ t.target then some (t.id, t.target)
      else if t.stop > 0 ∧ p ≤ t.stop then some (t.id, t.stop)
      else none
  else none

/-- Modelled from the spec: `evaluate(open_positions, ltp_by_symbol)` of
section 4.2, the ordered sequence of `(position_id, trigger_price)`
pairs. -/
def evaluate (L : List Trade) (ltp : List (String × ℚ)) : List (String × ℚ) :=
  L.filterMap (optTrig ltp)

/-- Feeding a sequence of triggers into the ledger's close operation, in
order (spec section 4.2: "the caller must feed each trigger into the
Ledger's close operation"). -/
def applyTriggers (L : List Trade) (trigs : List (String × ℚ)) : List Trade :=
  trigs.foldl (fun M tr => (update_trade_exit M tr.1 tr.2).1) L

/-! ### Basic facts about closing a single record -/

theorem closeTrade_id (t : Trade) (px : ℚ) : (closeTrade t px).id = t.id := rfl

theorem closeTrade_status (t : Trade) (px : ℚ) : (closeTrade t px).status = "CLOSED" := rfl

theorem closeTrade_exit_price (t : Trade) (px : ℚ) : (closeTrade t px).exit_price = px := rfl

theorem closeTrade_pnl (t : Trade) (px : ℚ) :
    (closeTrade t px).pnl = (px - t.entry) * (t.lot_size : ℚ) * (t.lots : ℚ) := rfl

theorem autoCloseOne_id (ltp : List (String × ℚ)) (t : Trade) :
    (autoCloseOne ltp t).id = t.id := by
  unfold autoCloseOne
  repeat first | rfl | split

theorem autoCloseOne_not_open {t : Trade} (ltp : List (String × ℚ))
    (h : ¬ t.status = "OPEN") : autoCloseOne ltp t = t := by
  unfold autoCloseOne
  rw [if_neg h]

theorem autoCloseOne_no_auto {t : Trade} (ltp : List (String × ℚ))
    (h : t.auto_close = false) : autoCloseOne ltp t = t := by
  unfold autoCloseOne
  split
  · split
    · rfl
    · simp [h]
  · rfl

/-! ### The close operation `update_trade_exit` -/

/-- When no record carries the id with status `"OPEN"`, the close scan is
a silent no-op: the ledger is unchanged and no toast is emitted. -/
theorem update_trade_exit_no_match (tid : String) (px : ℚ) :
    ∀ L : List Trade, (∀ t ∈ L, ¬(t.id = tid ∧ t.status = "OPEN")) →
      update_trade_exit L tid px = (L, none) := by
  intro L
  induction L with
  | nil => intro _; rfl
  | cons t ts ih =>
    intro h
    rw [update_trade_exit, if_neg (h t (List.mem_cons_self t ts)),
      ih (fun s hs => h s (List.mem_cons_of_mem t hs))]

/-- The close scan stops at the first record with the id and status
`"OPEN"`: that record is replaced by its closed form, everything else is
untouched, and the toast carries the closure data. -/
theorem update_trade_exit_first_match (tid : String) (px : ℚ) (t : Trade)
    (hid : t.id = tid) (hst : t.status = "OPEN") :
    ∀ (A : List Trade), (∀ a ∈ A, ¬(a.id = tid ∧ a.status = "OPEN")) →
      ∀ B : List Trade,
      update_trade_exit (A ++ t :: B) tid px
        = (A ++ closeTrade t px :: B, some (mkEvent t px)) := by
  intro A
  induction A with
  | nil =>
    intro _ B
    show update_trade_exit (t :: B) tid px = _
    rw [update_trade_exit, if_pos ⟨hid, hst⟩]
    rfl
  | cons a as ih =>
    intro h B
    simp only [List.cons_append]
    rw [update_trade_exit, if_neg (h a (List.mem_cons_self a as)),
      ih (fun s hs => h s (List.mem_cons_of_mem a hs)) B]

/-! ### One auto-close pass acts pointwise when ids are distinct -/

/-- Ids of a prefix of the ledger are distinct from the id of the record
right after the prefix, when all ids are distinct. -/
theorem take_ids_ne (L : List Trade) (hnd : (L.map Trade.id).Nodup)
    {k : ℕ} (hklt : k < L.length) :
    ∀ s ∈ L.take k, s.id ≠ L[k].id := by
  intro s hs heq
  have hsplit : (L.take k).map Trade.id ++ (L.drop k).map Trade.id
      = L.map Trade.id := by
    rw [← List.map_append, List.take_append_drop]
  have hnd2 : ((L.take k).map Trade.id ++ (L.drop k).map Trade.id).Nodup := by
    rw [hsplit]; exact hnd
  have hdisj := (List.nodup_append.1 hnd2).2.2
  have hmem1 : s.id ∈ (L.take k).map Trade.id := List.mem_map_of_mem Trade.id hs
  have hmem2 : L[k].id ∈ (L.drop k).map Trade.id := by
    rw [List.drop_eq_getElem_cons hklt]
    exact List.mem_map_of_mem Trade.id (List.mem_cons_self _ _)
  exact hdisj hmem1 (heq ▸ hmem2)

/-- Unfolding of the loop body at a position that holds a record. -/
theorem autoCloseStep_eq (ltp : List (String × ℚ)) (L : List Trade) (i : ℕ)
    (t : Trade) (h : L[i]? = some t) :
    autoCloseStep ltp L i =
      (if t.status ≠ "OPEN" then L
       else
        match ltp.lookup t.symbol with
        | none => L
        | some p =>
          if t.auto_close then
            if (hitConds t p).1 then (update_trade_exit L t.id t.target).1
            else if (hitConds t p).2 then (update_trade_exit L t.id t.stop).1
            else L
          else L) := by
  unfold autoCloseStep
  rw [h]

/-- Invariant of the `auto_close_if_hit` loop: after the first `k` loop
iterations, the first `k` records have been rewritten by `autoCloseOne`
and the rest of the ledger is untouched (ids assumed distinct). -/
theorem auto_close_fold_inv (ltp : List (String × ℚ)) (L : List Trade)
    (hnd : (L.map Trade.id).Nodup) :
    ∀ k, k ≤ L.length →
      (List.range k).foldl (autoCloseStep ltp) L
        = (L.take k).map (autoCloseOne ltp) ++ L.drop k := by
  intro k
  induction k with
  | zero => intro _; simp
  | succ k ih =>
    intro hk
    have hklt : k < L.length := hk
    have hk' : k ≤ L.length := Nat.le_of_lt hklt
    rw [List.range_succ, List.foldl_append, ih hk']
    simp only [List.foldl_cons, List.foldl_nil]
    have hdrop : L.drop k = L[k] :: L.drop (k + 1) := List.drop_eq_getElem_cons hklt
    have hlenA : ((L.take k).map (autoCloseOne ltp)).length = k := by
      simp [List.length_take, Nat.min_eq_left hk']
    have hgetM : ((L.take k).map (autoCloseOne ltp) ++ L.drop k)[k]? = some L[k] := by
      rw [List.getElem?_append_right hlenA.le, hlenA, Nat.sub_self, hdrop,
        List.getElem?_cons_zero]
    have htake : L.take (k + 1) = L.take k ++ [L[k]] := by
      rw [List.take_succ, List.getElem?_eq_getElem hklt]
      rfl
    have hRHS : (L.take (k + 1)).map (autoCloseOne ltp) ++ L.drop (k + 1)
        = (L.take k).map (autoCloseOne ltp)
          ++ (autoCloseOne ltp L[k] :: L.drop (k + 1)) := by
      rw [htake, List.map_append, List.append_assoc, List.map_cons, List.map_nil,
        List.singleton_append]
    rw [hRHS]
    have hids : ∀ a ∈ (L.take k).map (autoCloseOne ltp),
        ¬(a.id = L[k].id ∧ a.status = "OPEN") := by
      intro a ha hcon
      obtain ⟨s, hs, rfl⟩ := List.mem_map.1 ha
      exact take_ids_ne L hnd hklt s hs (by rw [← autoCloseOne_id ltp s]; exact hcon.1)
    rw [autoCloseStep_eq ltp _ k L[k] hgetM]
    by_cases hst : L[k].status = "OPEN"
    · rw [if_neg (by simpa using hst)]
      cases hlk : ltp.lookup L[k].symbol with
      | none =>
        rw [hdrop]
        have hone : autoCloseOne ltp L[k] = L[k] := by
          unfold autoCloseOne; rw [if_pos hst, hlk]
        rw [hone]
      | some p =>
        dsimp only
        by_cases hac : L[k].auto_close
        · rw [if_pos hac]
          by_cases h1 : (hitConds L[k] p).1
          · rw [if_pos h1, hdrop]
            rw [update_trade_exit_first_match L[k].id L[k].target L[k] rfl hst
              ((L.take k).map (autoCloseOne ltp)) hids (L.drop (k + 1))]
            have hone : autoCloseOne ltp L[k] = closeTrade L[k] L[k].target := by
              unfold autoCloseOne
              rw [if_pos hst, hlk]
              dsimp only
              rw [if_pos hac, if_pos h1]
            rw [hone]
          · rw [if_neg h1]
            by_cases h2 : (hitConds L[k] p).2
            · rw [if_pos h2, hdrop]
              rw [update_trade_exit_first_match L[k].id L[k].stop L[k] rfl hst
                ((L.take k).map (autoCloseOne ltp)) hids (L.drop (k + 1))]
              have hone : autoCloseOne ltp L[k] = closeTrade L[k] L[k].stop := by
                unfold autoCloseOne
                rw [if_pos hst, hlk]
                dsimp only
                rw [if_pos hac, if_neg h1, if_pos h2]
              rw [hone]
            · rw [if_neg h2, hdrop]
              have hone : autoCloseOne ltp L[k] = L[k] := by
                unfold autoCloseOne
                rw [if_pos hst, hlk]
                dsimp only
                rw [if_pos hac, if_neg h1, if_neg h2]
              rw [hone]
        · rw [if_neg hac, hdrop]
          have hone : autoCloseOne ltp L[k] = L[k] := by
            unfold autoCloseOne
            rw [if_pos hst, hlk]
            dsimp only
            rw [if_neg hac]
          rw [hone]
    · rw [if_pos (by simpa using hst), hdrop, autoCloseOne_not_open ltp hst]

/-- One pass of `auto_close_if_hit` rewrites every record independently
by `autoCloseOne` (ids assumed distinct). -/
theorem auto_close_if_hit_eq_map (L : List Trade) (ltp : List (String × ℚ))
    (hnd : (L.map Trade.id).Nodup) :
    auto_close_if_hit L ltp = L.map (autoCloseOne ltp) := by
  have h := auto_close_fold_inv ltp L hnd L.length le_rfl
  simpa [auto_close_if_hit] using h

/-! ### The spec's evaluator against the source's merged loop -/

/-- The CE/PE branch of the hit computation collapses: both arms are the
same two premium conditions. -/
theorem hitConds_eq (t : Trade) (p : ℚ) :
    hitConds t p = (decide (p ≥ t.target), decide (t.stop > 0 ∧ p ≤ t.stop)) := by
  unfold hitConds
  split <;> rfl

/-- Behaviour of one pass of the source loop on an open, auto-close
enabled position whose symbol has an LTP entry, with the CE/PE branch
already collapsed. -/
theorem autoCloseOne_open (ltp : List (String × ℚ)) (t : Trade) (p : ℚ)
    (hst : t.status = "OPEN") (hlk : ltp.lookup t.symbol = some p)
    (hac : t.auto_close = true) :
    autoCloseOne ltp t =
      (if p ≥ t.target then closeTrade t t.target
       else if t.stop > 0 ∧ p ≤ t.stop then closeTrade t t.stop
       else t) := by
  unfold autoCloseOne
  rw [if_pos hst, hlk]
  dsimp only
  rw [if_pos hac, hitConds_eq]
  by_cases h1 : p ≥ t.target
  · rw [if_pos (by simpa using h1), if_pos h1]
  · rw [if_neg (by simpa using h1), if_neg h1]
    by_cases h2 : t.stop > 0 ∧ p ≤ t.stop
    · rw [if_pos (by simpa using h2), if_pos h2]
    · rw [if_neg (by simpa using h2), if_neg h2]

/-- A trigger of the spec's evaluator carries the id of the position it
came from, and `autoCloseOne` closes that position at the trigger
price. -/
theorem optTrig_some (ltp : List (String × ℚ)) (t : Trade) (tr : String × ℚ)
    (h : optTrig ltp t = some tr) :
    tr.1 = t.id ∧ t.status = "OPEN" ∧ autoCloseOne ltp t = closeTrade t tr.2 := by
  unfold optTrig at h
  by_cases hc : t.auto_close = true ∧ t.status = "OPEN"
  · rw [if_pos hc] at h
    cases hlk : ltp.lookup t.symbol with
    | none => rw [hlk] at h; exact absurd h (by simp)
    | some p =>
      rw [hlk] at h
      dsimp only at h
      rw [autoCloseOne_open ltp t p hc.2 hlk hc.1]
      by_cases h1 : p ≥ t.target
      · rw [if_pos h1] at h
        injection h with e
        subst e
        exact ⟨rfl, hc.2, by rw [if_pos h1]⟩
      · rw [if_neg h1] at h
        by_cases h2 : t.stop > 0 ∧ p ≤ t.stop
        · rw [if_pos h2] at h
          injection h with e
          subst e
          exact ⟨rfl, hc.2, by rw [if_neg h1, if_pos h2]⟩
        · rw [if_neg h2] at h; exact absurd h (by simp)
  · rw [if_neg hc] at h
    exact absurd h (by simp)

/-- When the spec's evaluator emits no trigger for a position, one pass
of the source loop leaves that position unchanged. -/
theorem optTrig_none (ltp : List (String × ℚ)) (t : Trade)
    (h : optTrig ltp t = none) : autoCloseOne ltp t = t := by
  unfold optTrig at h
  by_cases hst : t.status = "OPEN"
  · by_cases hac : t.auto_close = true
    · rw [if_pos ⟨hac, hst⟩] at h
      cases hlk : ltp.lookup t.symbol with
      | none =>
        unfold autoCloseOne
        rw [if_pos hst, hlk]
      | some p =>
        rw [hlk] at h
        dsimp only at h
        rw [autoCloseOne_open ltp t p hst hlk hac]
        by_cases h1 : p ≥ t.target
        · rw [if_pos h1] at h; exact absurd h (by simp)
        · rw [if_neg h1] at h
          by_cases h2 : t.stop > 0 ∧ p ≤ t.stop
          · rw [if_pos h2] at h; exact absurd h (by simp)
          · rw [if_neg h1, if_neg h2]
    · exact autoCloseOne_no_auto ltp (by simpa using hac)
  · exact autoCloseOne_not_open ltp hst

/-- Every trigger id emitted by the evaluator is the id of some position
of its input. -/
theorem evaluate_ids (ltp : List (String × ℚ)) (L : List Trade) :
    ∀ tr ∈ evaluate L ltp, tr.1 ∈ L.map Trade.id := by
  intro tr htr
  obtain ⟨t, ht, hsome⟩ := List.mem_filterMap.1 htr
  obtain ⟨hid, -, -⟩ := optTrig_some ltp t tr hsome
  exact hid ▸ List.mem_map_of_mem Trade.id ht

/-- Feeding triggers whose ids all differ from the head's id walks past
the head. -/
theorem applyTriggers_skip_head (t : Trade) :
    ∀ (trigs : List (String × ℚ)), (∀ tr ∈ trigs, t.id ≠ tr.1) →
      ∀ ts : List Trade,
      applyTriggers (t :: ts) trigs = t :: applyTriggers ts trigs := by
  intro trigs
  induction trigs with
  | nil => intro _ ts; rfl
  | cons tr rest ih =>
    intro h ts
    have hne : ¬(t.id = tr.1 ∧ t.status = "OPEN") := by
      intro hcon
      exact h tr (List.mem_cons_self tr rest) hcon.1
    show applyTriggers ((update_trade_exit (t :: ts) tr.1 tr.2).1) rest
        = t :: applyTriggers ((update_trade_exit ts tr.1 tr.2).1) rest
    rw [update_trade_exit, if_neg hne]
    exact ih (fun tr2 h2 => h tr2 (List.mem_cons_of_mem tr h2)) _

/-- Feeding the evaluator's triggers into the close operation, in order,
is exactly one pass of the source's merged loop (ids assumed
distinct). -/
theorem applyTriggers_evaluate (ltp : List (String × ℚ)) :
    ∀ L : List Trade, (L.map Trade.id).Nodup →
      applyTriggers L (evaluate L ltp) = L.map (autoCloseOne ltp) := by
  intro L
  induction L with
  | nil => intro _; rfl
  | cons t ts ih =>
    intro hnd
    have hnd2 : (ts.map Trade.id).Nodup := (List.nodup_cons.1 hnd).2
    have hhd : t.id ∉ ts.map Trade.id := (List.nodup_cons.1 hnd).1
    have hskip : ∀ tr ∈ evaluate ts ltp, t.id ≠ tr.1 := by
      intro tr htr heq
      exact hhd (heq ▸ evaluate_ids ltp ts tr htr)
    show applyTriggers (t :: ts) (List.filterMap (optTrig ltp) (t :: ts)) = _
    rw [List.filterMap_cons]
    cases hot : optTrig ltp t with
    | none =>
      dsimp only
      show applyTriggers (t :: ts) (evaluate ts ltp) = _
      rw [applyTriggers_skip_head t (evaluate ts ltp) hskip ts, ih hnd2,
        List.map_cons, optTrig_none ltp t hot]
    | some tr =>
      dsimp only
      obtain ⟨hid, hst, hone⟩ := optTrig_some ltp t tr hot
      show applyTriggers ((update_trade_exit (t :: ts) tr.1 tr.2).1) (evaluate ts ltp) = _
      rw [update_trade_exit, if_pos ⟨hid.symm, hst⟩]
      show applyTriggers (closeTrade t tr.2 :: ts) (evaluate ts ltp) = _
      rw [applyTriggers_skip_head (closeTrade t tr.2) (evaluate ts ltp)
        (by intro tr2 h2 heq; exact hskip tr2 h2 heq) ts]
      rw [ih hnd2, List.map_cons, hone]

/-- The trigger ids form a sublist of the ledger's ids: in particular at
most one trigger is emitted per position. -/
theorem evaluate_fst_sublist (ltp : List (String × ℚ)) :
    ∀ L : List Trade, ((evaluate L ltp).map Prod.fst).Sublist (L.map Trade.id) := by
  intro L
  induction L with
  | nil => simp [evaluate]
  | cons t ts ih =>
    show ((List.filterMap (optTrig ltp) (t :: ts)).map Prod.fst).Sublist _
    rw [List.filterMap_cons]
    cases hot : optTrig ltp t with
    | none =>
      dsimp only
      rw [List.map_cons]
      exact ih.cons t.id
    | some tr =>
      dsimp only
      rw [List.map_cons, List.map_cons]
      rw [(optTrig_some ltp t tr hot).1]
      exact ih.cons₂ t.id

/-- One pass of `auto_close_if_hit` keeps every id in place. -/
theorem map_autoCloseOne_ids (ltp : List (String × ℚ)) (L : List Trade) :
    (L.map (autoCloseOne ltp)).map Trade.id = L.map Trade.id := by
  rw [List.map_map]
  exact List.map_congr_left (fun t _ => autoCloseOne_id ltp t)

/-- With distinct ids, searching the ledger for an id finds exactly the
record that carries it. -/
theorem find?_id_unique (tid : String) (t : Trade) (hid : t.id = tid) :
    ∀ L : List Trade, (L.map Trade.id).Nodup → t ∈ L →
      L.find? (fun s => s.id == tid) = some t := by
  intro L
  induction L with
  | nil => intro _ ht; cases ht
  | cons a as ih =>
    intro hnd ht
    rw [List.map_cons] at hnd
    by_cases ha : a.id = tid
    · have hat : a = t := by
        have hnd2 : ((a :: as).map Trade.id).Nodup := by rw [List.map_cons]; exact hnd
        exact List.inj_on_of_nodup_map hnd2 (List.mem_cons_self a as) ht (by rw [ha, hid])
      rw [List.find?_cons_of_pos _ (by simp [ha]), hat]
    · rw [List.find?_cons_of_neg _ (by simp [ha])]
      have ht2 : t ∈ as := by
        rcases List.mem_cons.1 ht with h | h
        · exact absurd (h ▸ hid) ha
        · exact h
      exact ih (List.nodup_cons.1 hnd).2 ht2

/-- The ids of a ledger after a sequence of "Add Trade" calls are the old
ids followed by the drawn ids, in order. -/
theorem createSeq_ids :
    ∀ (reqs : List (String × String × TradeForm)) (L : List Trade),
      (createSeq L reqs).map Trade.id
        = L.map Trade.id ++ reqs.map (fun r => r.1) := by
  intro reqs
  induction reqs with
  | nil => intro L; simp [createSeq]
  | cons r rest ih =>
    intro L
    show (createSeq (addTrade L r.1 r.2.1 r.2.2) rest).map Trade.id = _
    rw [ih]
    simp [addTrade, save_trade, mkTrade]

/-! ### Sample records for concrete instantiations -/

/-- An open CE position (entry 2, target 3, stop 2, auto-close on). -/
def sampleOpen : Trade :=
  { id := "aaaa1111", ts := "2025-08-14 09:30:00", symbol := "MIDCPNIFTY"
    option_type := "CE", strike := 14000, expiry := "14-Aug-2025"
    lot_size := 140, lots := 1, entry := 2, target := 3, stop := 2
    auto_close := true, status := "OPEN", exit_price := 0, pnl := 0 }

/-- A position already closed at 3 (pnl (3 - 2) * 140 * 1 = 140). -/
def sampleClosed : Trade :=
  { id := "bbbb2222", ts := "2025-08-14 10:00:00", symbol := "MIDCPNIFTY"
    option_type := "CE", strike := 14000, expiry := "14-Aug-2025"
    lot_size := 140, lots := 1, entry := 2, target := 3, stop := 2
    auto_close := true, status := "CLOSED", exit_price := 3, pnl := 140 }

/-- An open PE position whose target (3) and stop (4) both fire at
LTP 3. -/
def sampleBoth : Trade :=
  { id := "cccc3333", ts := "2025-08-14 09:45:00", symbol := "SENSEX"
    option_type := "PE", strike := 81000, expiry := "14-Aug-2025"
    lot_size := 20, lots := 2, entry := 2, target := 3, stop := 4
    auto_close := true, status := "OPEN", exit_price := 0, pnl := 0 }

/-- An open position with auto-close disabled, deep past its target. -/
def sampleNoAuto : Trade :=
  { id := "dddd4444", ts := "2025-08-14 09:50:00", symbol := "BANKNIFTY"
    option_type := "CE", strike := 52000, expiry := "14-Aug-2025"
    lot_size := 15, lots := 1, entry := 1, target := 2, stop := 1
    auto_close := false, status := "OPEN", exit_price := 0, pnl := 0 }

/-- A creation request that satisfies every constraint of the spec, with
a symbol that needs trimming and upper-casing. -/
def validForm : TradeForm :=
  { symbol := " midcpnifty ", option_type := "CE", strike := 14000
    expiry := "14-Aug-2025", lot_size := 140, lots := 1
    entry := 2, target := 3, stop := 2, auto_close := true }

/-- A creation request whose symbol is empty after trimming and which
satisfies every other constraint. -/
def emptySymbolForm : TradeForm :=
  { symbol := "   ", option_type := "CE", strike := 14000
    expiry := "14-Aug-2025", lot_size := 140, lots := 1
    entry := 2, target := 3, stop := 0, auto_close := true }

/-! ### The claims -/

/-- Claim C10: closing an OPEN position replaces only that record — by
its closed form — leaving the ledger's length and order unchanged, every
other record untouched, and every field of the record other than
`status`, `exit_price` and `pnl` bit-for-bit identical. -/
theorem C10_close_frame (A : List Trade) (t : Trade) (B : List Trade)
    (tid : String) (px : ℚ)
    (hA : ∀ a ∈ A, a.id ≠ tid) (hid : t.id = tid) (hst : t.status = "OPEN") :
    update_trade_exit (A ++ t :: B) tid px
        = (A ++ closeTrade t px :: B, some (mkEvent t px)) ∧
    (A ++ closeTrade t px :: B).length = (A ++ t :: B).length ∧
    (closeTrade t px).id = t.id ∧
    (closeTrade t px).ts = t.ts ∧
    (closeTrade t px).symbol = t.symbol ∧
    (closeTrade t px).option_type = t.option_type ∧
    (closeTrade t px).strike = t.strike ∧
    (closeTrade t px).expiry = t.expiry ∧
    (closeTrade t px).lot_size = t.lot_size ∧
    (closeTrade t px).lots = t.lots ∧
    (closeTrade t px).entry = t.entry ∧
    (closeTrade t px).target = t.target ∧
    (closeTrade t px).stop = t.stop ∧
    (closeTrade t px).auto_close = t.auto_close ∧
    (closeTrade t px).status = "CLOSED" ∧
    (closeTrade t px).exit_price = px ∧
    (closeTrade t px).pnl = (px - t.entry) * (t.lot_size : ℚ) * (t.lots : ℚ) := by
  refine ⟨?_, by simp, rfl, rfl, rfl, rfl, rfl, rfl, rfl, rfl, rfl, rfl, rfl, rfl,
    rfl, rfl, rfl⟩
  exact update_trade_exit_first_match tid px t hid hst A
    (fun a ha hcon => hA a ha hcon.1) B

/-- Witness for C10 at a two-record ledger. -/
theorem C10_close_frame_witness :
    (∀ a ∈ [sampleClosed], a.id ≠ "aaaa1111") ∧
    sampleOpen.id = "aaaa1111" ∧ sampleOpen.status = "OPEN" ∧
    update_trade_exit [sampleClosed, sampleOpen] "aaaa1111" 3
      = ([sampleClosed, closeTrade sampleOpen 3], some (mkEvent sampleOpen 3)) :=
  ⟨by decide, by decide, by decide, by
    have h := (C10_close_frame [sampleClosed] sampleOpen [] "aaaa1111" 3
      (by decide) (by decide) (by decide)).1
    simpa using h⟩

/-- Claim C2: every closure — a manual `update_trade_exit` call or an
auto-close pass — stores the record `closeTrade t px`, whose
`realized_pnl` is exactly `(exit_premium − entry_premium) × lot_size ×
lots`, with the same formula for CE and PE (no sign inversion: the
source's `sign` variable is dead code). -/
theorem C2_pnl_formula (t : Trade) (px : ℚ) :
    (closeTrade t px).pnl
        = ((closeTrade t px).exit_price - t.entry)
            * (t.lot_size : ℚ) * (t.lots : ℚ) ∧
    (closeTrade t px).exit_price = px ∧
    (∀ o : String,
      (closeTrade { t with option_type := o } px).pnl = (closeTrade t px).pnl) ∧
    (∀ (A B : List Trade) (tid : String), (∀ a ∈ A, a.id ≠ tid) → t.id = tid →
      t.status = "OPEN" →
      update_trade_exit (A ++ t :: B) tid px
        = (A ++ closeTrade t px :: B, some (mkEvent t px))) ∧
    (∀ ltp : List (String × ℚ),
      autoCloseOne ltp t = t ∨ autoCloseOne ltp t = closeTrade t t.target ∨
        autoCloseOne ltp t = closeTrade t t.stop) ∧
    (∀ (L : List Trade) (ltp : List (String × ℚ)), (L.map Trade.id).Nodup →
      auto_close_if_hit L ltp = L.map (autoCloseOne ltp)) := by
  refine ⟨rfl, rfl, fun o => rfl, ?_, ?_, ?_⟩
  · intro A B tid hA hid hst
    exact update_trade_exit_first_match tid px t hid hst A
      (fun a ha hcon => hA a ha hcon.1) B
  · intro ltp
    by_cases hst : t.status = "OPEN"
    · cases hlk : ltp.lookup t.symbol with
      | none =>
        left
        unfold autoCloseOne
        rw [if_pos hst, hlk]
      | some p =>
        by_cases hac : t.auto_close = true
        · rw [autoCloseOne_open ltp t p hst hlk hac]
          by_cases h1 : p ≥ t.target
          · right; left; rw [if_pos h1]
          · rw [if_neg h1]
            by_cases h2 : t.stop > 0 ∧ p ≤ t.stop
            · right; right; rw [if_pos h2]
            · left; rw [if_neg h2]
        · left; exact autoCloseOne_no_auto ltp (by simpa using hac)
    · left; exact autoCloseOne_not_open ltp hst
  · intro L ltp hnd
    exact auto_close_if_hit_eq_map L ltp hnd

/-- Witness for C2: a manual close of the sample open position at 3
books pnl (3 − 2) × 140 × 1 = 140, and the same formula holds with the
option type flipped to PE. -/
theorem C2_pnl_formula_witness :
    (closeTrade sampleOpen 3).pnl
        = ((closeTrade sampleOpen 3).exit_price - sampleOpen.entry)
            * (sampleOpen.lot_size : ℚ) * (sampleOpen.lots : ℚ) ∧
    (closeTrade { sampleOpen with option_type := "PE" } 3).pnl
        = (closeTrade sampleOpen 3).pnl ∧
    update_trade_exit [sampleOpen] "aaaa1111" 3
        = ([closeTrade sampleOpen 3], some (mkEvent sampleOpen 3)) :=
  ⟨(C2_pnl_formula sampleOpen 3).1,
   (C2_pnl_formula sampleOpen 3).2.2.1 "PE",
   by
    have h := (C2_pnl_formula sampleOpen 3).2.2.2.1 [] [] "aaaa1111"
      (by decide) (by decide) (by decide)
    simpa using h⟩

/-- Claim C5: the hit flags are `ltp ≥ target_premium` and
`stop_premium > 0 ∧ ltp ≤ stop_premium`, identically for CE and PE; a
zero stop never fires; and on an open, auto-close enabled position whose
symbol is in the snapshot, the pass acts exactly by these flags. -/
theorem C5_hit_conditions (t : Trade) (p : ℚ) :
    ((hitConds t p).1 = true ↔ p ≥ t.target) ∧
    ((hitConds t p).2 = true ↔ (t.stop > 0 ∧ p ≤ t.stop)) ∧
    (∀ o : String, hitConds { t with option_type := o } p = hitConds t p) ∧
    (t.stop = 0 → (hitConds t p).2 = false) ∧
    (∀ ltp : List (String × ℚ), t.status = "OPEN" → t.auto_close = true →
      ltp.lookup t.symbol = some p →
      autoCloseOne ltp t =
        (if (hitConds t p).1 then closeTrade t t.target
         else if (hitConds t p).2 then closeTrade t t.stop
         else t)) := by
  refine ⟨?_, ?_, ?_, ?_, ?_⟩
  · rw [hitConds_eq]; simp
  · rw [hitConds_eq]; simp
  · intro o; rw [hitConds_eq, hitConds_eq]
  · intro h0; rw [hitConds_eq]; simp [h0]
  · intro ltp hst hac hlk
    unfold autoCloseOne
    rw [if_pos hst, hlk]
    dsimp only
    rw [if_pos hac]

/-- Witness for C5 on the PE sample position with LTP 3: the target
flag is set, the stop flag is set, and with a zero stop the stop flag
clears. -/
theorem C5_hit_conditions_witness :
    (hitConds sampleBoth (3 : ℚ)).1 = true ∧
    (hitConds sampleBoth (3 : ℚ)).2 = true ∧
    hitConds { sampleBoth with option_type := "CE" } (3 : ℚ)
      = hitConds sampleBoth (3 : ℚ) ∧
    ({ sampleBoth with stop := 0 } : Trade).stop = 0 ∧
    (hitConds { sampleBoth with stop := 0 } (3 : ℚ)).2 = false ∧
    autoCloseOne [("SENSEX", 3)] sampleBoth
      = (if (hitConds sampleBoth (3 : ℚ)).1 then closeTrade sampleBoth sampleBoth.target
         else if (hitConds sampleBoth (3 : ℚ)).2 then closeTrade sampleBoth sampleBoth.stop
         else sampleBoth) :=
  ⟨(C5_hit_conditions sampleBoth (3 : ℚ)).1.mpr (by decide),
   (C5_hit_conditions sampleBoth (3 : ℚ)).2.1.mpr (by decide),
   (C5_hit_conditions sampleBoth (3 : ℚ)).2.2.1 "CE",
   rfl,
   (C5_hit_conditions { sampleBoth with stop := 0 } (3 : ℚ)).2.2.2.1 rfl,
   (C5_hit_conditions sampleBoth (3 : ℚ)).2.2.2.2 [("SENSEX", 3)]
     (by decide) (by decide) (by decide)⟩

/-- Claim C1: closing a missing id is the spec's `NotFoundError` case and
closing a CLOSED position the `AlreadyClosedError` case; in both the
source's close is a complete no-op — the ledger is unchanged, no toast is
emitted, and any number of repeated calls still changes nothing, so a
CLOSED position's `exit_price` and `pnl` are never rewritten.  (The
source signals neither error by name: both failures surface as the
silent no-op; `closeError` is the spec-modelled classification.) -/
theorem C1_close_missing_or_closed_fails_noop
    (L : List Trade) (tid : String) (px : ℚ) :
    ((∀ t ∈ L, t.id ≠ tid) →
      closeError L tid = some LedgerError.notFound ∧
      update_trade_exit L tid px = (L, none) ∧
      ∀ n : ℕ, (fun M => (update_trade_exit M tid px).1)^[n] L = L) ∧
    ((L.map Trade.id).Nodup → ∀ t ∈ L, t.id = tid → t.status = "CLOSED" →
      closeError L tid = some LedgerError.alreadyClosed ∧
      update_trade_exit L tid px = (L, none) ∧
      ∀ n : ℕ, (fun M => (update_trade_exit M tid px).1)^[n] L = L) := by
  constructor
  · intro h
    have hupd := update_trade_exit_no_match tid px L
      (fun t ht hcon => h t ht hcon.1)
    refine ⟨?_, hupd, ?_⟩
    · unfold closeError
      have hnone : L.find? (fun s => s.id == tid) = none :=
        List.find?_eq_none.2 (fun t ht => by simpa using h t ht)
      rw [hnone]
    · intro n
      induction n with
      | zero => rfl
      | succ n ihn =>
        rw [Function.iterate_succ_apply, hupd]
        exact ihn
  · intro hnd t ht hid hcl
    have hnm : ∀ s ∈ L, ¬(s.id = tid ∧ s.status = "OPEN") := by
      intro s hs hcon
      have hst : s = t :=
        List.inj_on_of_nodup_map hnd hs ht (by rw [hcon.1, hid])
      rw [hst, hcl] at hcon
      exact absurd hcon.2 (by decide)
    have hupd := update_trade_exit_no_match tid px L hnm
    refine ⟨?_, hupd, ?_⟩
    · unfold closeError
      rw [find?_id_unique tid t hid L hnd ht]
      dsimp only
      rw [if_neg (by rw [hcl]; decide)]
    · intro n
      induction n with
      | zero => rfl
      | succ n ihn =>
        rw [Function.iterate_succ_apply, hupd]
        exact ihn

/-- Witness for C1: on a one-record ledger holding a CLOSED position,
closing an unknown id and re-closing the CLOSED id both classify as the
spec's errors and leave the ledger untouched (shown here for two
repetitions as well). -/
theorem C1_close_missing_or_closed_fails_noop_witness :
    (closeError [sampleClosed] "zzzz9999" = some LedgerError.notFound ∧
      update_trade_exit [sampleClosed] "zzzz9999" 4 = ([sampleClosed], none) ∧
      ∀ n : ℕ,
        (fun M => (update_trade_exit M "zzzz9999" 4).1)^[n] [sampleClosed]
          = [sampleClosed]) ∧
    (closeError [sampleClosed] "bbbb2222" = some LedgerError.alreadyClosed ∧
      update_trade_exit [sampleClosed] "bbbb2222" 4 = ([sampleClosed], none) ∧
      ∀ n : ℕ,
        (fun M => (update_trade_exit M "bbbb2222" 4).1)^[n] [sampleClosed]
          = [sampleClosed]) :=
  ⟨(C1_close_missing_or_closed_fails_noop [sampleClosed] "zzzz9999" 4).1
      (by decide),
   (C1_close_missing_or_closed_fails_noop [sampleClosed] "bbbb2222" 4).2
      (by decide) sampleClosed (List.mem_cons_self sampleClosed [])
      (by decide) (by decide)⟩

/-- Claim C3: when the target condition and the stop condition hold
simultaneously for an open, auto-close enabled position with an LTP for
its symbol, the pass closes the position via the target branch — the
record becomes `closeTrade t t.target`, whose exit price is the
configured target, not the stop. -/
theorem C3_target_precedence (L : List Trade) (ltp : List (String × ℚ))
    (t : Trade) (p : ℚ) (hnd : (L.map Trade.id).Nodup) (ht : t ∈ L)
    (hst : t.status = "OPEN") (hac : t.auto_close = true)
    (hlk : ltp.lookup t.symbol = some p)
    (htgt : p ≥ t.target) (hstp : t.stop > 0 ∧ p ≤ t.stop) :
    autoCloseOne ltp t = closeTrade t t.target ∧
    (autoCloseOne ltp t).exit_price = t.target ∧
    auto_close_if_hit L ltp = L.map (autoCloseOne ltp) ∧
    closeTrade t t.target ∈ auto_close_if_hit L ltp := by
  have hone : autoCloseOne ltp t = closeTrade t t.target := by
    rw [autoCloseOne_open ltp t p hst hlk hac, if_pos htgt]
  have hmap := auto_close_if_hit_eq_map L ltp hnd
  refine ⟨hone, by rw [hone]; rfl, hmap, ?_⟩
  rw [hmap]
  exact hone ▸ List.mem_map_of_mem (autoCloseOne ltp) ht

/-- Witness for C3: the PE sample position (target 3, stop 4) at LTP 3
satisfies both conditions and closes at its target premium 3. -/
theorem C3_target_precedence_witness :
    ((3 : ℚ) ≥ sampleBoth.target ∧ sampleBoth.stop > 0 ∧
      (3 : ℚ) ≤ sampleBoth.stop) ∧
    autoCloseOne [("SENSEX", 3)] sampleBoth = closeTrade sampleBoth sampleBoth.target ∧
    (autoCloseOne [("SENSEX", 3)] sampleBoth).exit_price = sampleBoth.target ∧
    closeTrade sampleBoth sampleBoth.target
      ∈ auto_close_if_hit [sampleBoth] [("SENSEX", 3)] :=
  ⟨⟨by decide, by decide, by decide⟩,
   (C3_target_precedence [sampleBoth] [("SENSEX", 3)] sampleBoth 3
      (by decide) (List.mem_cons_self sampleBoth []) (by decide) (by decide)
      rfl (by decide) ⟨by decide, by decide⟩).1,
   (C3_target_precedence [sampleBoth] [("SENSEX", 3)] sampleBoth 3
      (by decide) (List.mem_cons_self sampleBoth []) (by decide) (by decide)
      rfl (by decide) ⟨by decide, by decide⟩).2.1,
   (C3_target_precedence [sampleBoth] [("SENSEX", 3)] sampleBoth 3
      (by decide) (List.mem_cons_self sampleBoth []) (by decide) (by decide)
      rfl (by decide) ⟨by decide, by decide⟩).2.2.2⟩

/-- Claim C4: a position closed by the auto-close pass is closed at its
configured `target_premium` (when the target condition fired) or at its
configured `stop_premium` (when only the stop condition fired) — never at
the raw LTP from the snapshot. -/
theorem C4_exit_at_configured_trigger (L : List Trade) (ltp : List (String × ℚ))
    (hnd : (L.map Trade.id).Nodup) :
    auto_close_if_hit L ltp = L.map (autoCloseOne ltp) ∧
    ∀ t ∈ L, t.status = "OPEN" → (autoCloseOne ltp t).status = "CLOSED" →
      ∃ p, ltp.lookup t.symbol = some p ∧ t.auto_close = true ∧
        ((p ≥ t.target ∧ autoCloseOne ltp t = closeTrade t t.target ∧
            (autoCloseOne ltp t).exit_price = t.target) ∨
         (¬ p ≥ t.target ∧ t.stop > 0 ∧ p ≤ t.stop ∧
            autoCloseOne ltp t = closeTrade t t.stop ∧
            (autoCloseOne ltp t).exit_price = t.stop)) := by
  refine ⟨auto_close_if_hit_eq_map L ltp hnd, ?_⟩
  intro t ht hst hcl
  by_cases hac : t.auto_close = true
  · cases hlk : ltp.lookup t.symbol with
    | none =>
      exfalso
      unfold autoCloseOne at hcl
      rw [if_pos hst, hlk] at hcl
      rw [hst] at hcl
      exact absurd hcl (by decide)
    | some p =>
      refine ⟨p, by simp [hlk], hac, ?_⟩
      rw [autoCloseOne_open ltp t p hst hlk hac] at hcl ⊢
      by_cases h1 : p ≥ t.target
      · left
        rw [if_pos h1]
        exact ⟨h1, rfl, rfl⟩
      · rw [if_neg h1] at hcl ⊢
        by_cases h2 : t.stop > 0 ∧ p ≤ t.stop
        · right
          rw [if_pos h2]
          exact ⟨h1, h2.1, h2.2, rfl, rfl⟩
        · exfalso
          rw [if_neg h2] at hcl
          rw [hst] at hcl
          exact absurd hcl (by decide)
  · exfalso
    rw [autoCloseOne_no_auto ltp (by simpa using hac)] at hcl
    rw [hst] at hcl
    exact absurd hcl (by decide)

/-- Witness for C4: at LTP 3 the PE sample position closes, and the
disjunction resolves to the target branch with exit price 3 (its
configured target), even though stop 4 also matched. -/
theorem C4_exit_at_configured_trigger_witness :
    sampleBoth.status = "OPEN" ∧
    (autoCloseOne [("SENSEX", 3)] sampleBoth).status = "CLOSED" ∧
    (∃ p, List.lookup sampleBoth.symbol [("SENSEX", 3)] = some p ∧
      sampleBoth.auto_close = true ∧
      ((p ≥ sampleBoth.target ∧
          autoCloseOne [("SENSEX", 3)] sampleBoth
            = closeTrade sampleBoth sampleBoth.target ∧
          (autoCloseOne [("SENSEX", 3)] sampleBoth).exit_price
            = sampleBoth.target) ∨
       (¬ p ≥ sampleBoth.target ∧ sampleBoth.stop > 0 ∧ p ≤ sampleBoth.stop ∧
          autoCloseOne [("SENSEX", 3)] sampleBoth
            = closeTrade sampleBoth sampleBoth.stop ∧
          (autoCloseOne [("SENSEX", 3)] sampleBoth).exit_price
            = sampleBoth.stop))) :=
  ⟨by decide, by decide,
   (C4_exit_at_configured_trigger [sampleBoth] [("SENSEX", 3)] (by decide)).2
     sampleBoth (List.mem_cons_self sampleBoth []) (by decide) (by decide)⟩

/-- Claim C8: the evaluation is pure with respect to the ledger.  The
spec-modelled `evaluate` is a plain function of the positions and the
snapshot (so identical inputs give identical output and nothing is
mutated), it emits at most one trigger per position (its trigger ids are
a deduplicated sublist of the ledger's ids), and the source's
`auto_close_if_hit` is exactly `applyTriggers` — every closure goes
through the ledger's close operation `update_trade_exit` fed with the
evaluator's triggers, in order. -/
theorem C8_evaluate_pure_closures_via_close
    (L : List Trade) (ltp : List (String × ℚ)) (hnd : (L.map Trade.id).Nodup) :
    auto_close_if_hit L ltp = applyTriggers L (evaluate L ltp) ∧
    ((evaluate L ltp).map Prod.fst).Sublist (L.map Trade.id) ∧
    ((evaluate L ltp).map Prod.fst).Nodup := by
  have hsub := evaluate_fst_sublist ltp L
  refine ⟨?_, hsub, List.Nodup.sublist hsub hnd⟩
  rw [auto_close_if_hit_eq_map L ltp hnd, applyTriggers_evaluate ltp L hnd]

/-- Witness for C8 on a two-record ledger: one trigger is emitted for the
open auto-close position, and feeding it into the close operation
reproduces the source pass. -/
theorem C8_evaluate_pure_closures_via_close_witness :
    ([sampleClosed, sampleBoth].map Trade.id).Nodup ∧
    auto_close_if_hit [sampleClosed, sampleBoth] [("SENSEX", 3)]
      = applyTriggers [sampleClosed, sampleBoth]
          (evaluate [sampleClosed, sampleBoth] [("SENSEX", 3)]) ∧
    ((evaluate [sampleClosed, sampleBoth] [("SENSEX", 3)]).map Prod.fst).Nodup :=
  ⟨by decide,
   (C8_evaluate_pure_closures_via_close [sampleClosed, sampleBoth]
      [("SENSEX", 3)] (by decide)).1,
   (C8_evaluate_pure_closures_via_close [sampleClosed, sampleBoth]
      [("SENSEX", 3)] (by decide)).2.2⟩

/-- Claim C9: a position with `auto_close` disabled is never closed by
the auto-close evaluation — after any number of passes over any LTP
snapshots the record at its position is bit-for-bit unchanged (so its
status is still OPEN unless a manual close changes it). -/
theorem C9_auto_close_opt_out (snaps : List (List (String × ℚ))) :
    ∀ L : List Trade, (L.map Trade.id).Nodup →
      ∀ (i : ℕ) (t : Trade), L[i]? = some t → t.auto_close = false →
        (snaps.foldl auto_close_if_hit L)[i]? = some t := by
  induction snaps with
  | nil => intro L _ i t h _; exact h
  | cons m rest ih =>
    intro L hnd i t h hac
    show (rest.foldl auto_close_if_hit (auto_close_if_hit L m))[i]? = some t
    have hmap := auto_close_if_hit_eq_map L m hnd
    have hnd2 : ((auto_close_if_hit L m).map Trade.id).Nodup := by
      rw [hmap, map_autoCloseOne_ids]
      exact hnd
    have hget : (auto_close_if_hit L m)[i]? = some t := by
      rw [hmap, List.getElem?_map, h]
      simp [autoCloseOne_no_auto m hac]
    exact ih (auto_close_if_hit L m) hnd2 i t hget hac

/-- Witness for C9: the opt-out position sits at LTP 5, far past its
target 2 and stop 1, through three snapshots, and stays exactly as it
was. -/
theorem C9_auto_close_opt_out_witness :
    sampleNoAuto.auto_close = false ∧
    ([[("BANKNIFTY", 5)], [("BANKNIFTY", 1)], []].foldl auto_close_if_hit
        [sampleNoAuto])[0]? = some sampleNoAuto :=
  ⟨by decide,
   C9_auto_close_opt_out [[("BANKNIFTY", 5)], [("BANKNIFTY", 1)], []]
     [sampleNoAuto] (by decide) 0 sampleNoAuto rfl (by decide)⟩

/-- Claim C6 counterexample: per the claim, a creation request whose
symbol is empty after trimming must fail with `ValidationError` and leave
the ledger unchanged.  The spec-modelled `create_spec` indeed rejects it,
but the source's "Add Trade" handler performs no symbol check and appends
a record anyway — the ledger grows from zero to one position, so the
claim is false as stated. -/
theorem C6_counterexample :
    pyStrip emptySymbolForm.symbol = "" ∧
    create_spec [] "aaaa1111" "2025-08-14 09:30:00" emptySymbolForm
      = Except.error LedgerError.validation ∧
    addTrade [] "aaaa1111" "2025-08-14 09:30:00" emptySymbolForm
      = [mkTrade "aaaa1111" "2025-08-14 09:30:00" emptySymbolForm] ∧
    (addTrade [] "aaaa1111" "2025-08-14 09:30:00" emptySymbolForm).length = 1 ∧
    ([] : List Trade).length = 0 := by
  refine ⟨by decide, ?_, rfl, rfl, rfl⟩
  unfold create_spec
  rw [if_pos (by decide)]

/-- Claim C6 amended: the "Add Trade" handler performs no validation of
its own — for every request it appends exactly one new record, with
status OPEN, exit price 0 and pnl 0 and the symbol trimmed and
upper-cased.  The option-type and numeric constraints are enforced
upstream by the form widgets, and whenever they hold and the symbol is
non-empty after trimming the handler agrees with the spec-modelled
`create_spec`; but a symbol that is empty after trimming is not rejected:
`create_spec` fails with `ValidationError` while the handler still
appends the record. -/
theorem C6_create_appends_without_symbol_validation
    (L : List Trade) (newId newTs : String) (f : TradeForm) :
    addTrade L newId newTs f = L ++ [mkTrade newId newTs f] ∧
    (mkTrade newId newTs f).status = "OPEN" ∧
    (mkTrade newId newTs f).exit_price = 0 ∧
    (mkTrade newId newTs f).pnl = 0 ∧
    (mkTrade newId newTs f).symbol = pyUpper (pyStrip f.symbol) ∧
    (¬ pyStrip f.symbol = "" → (f.option_type = "CE" ∨ f.option_type = "PE") →
      ¬(f.strike < 0 ∨ f.entry < 0 ∨ f.target < 0 ∨ f.stop < 0) →
      ¬(f.lot_size < 1 ∨ f.lots < 1) →
      create_spec L newId newTs f = Except.ok (addTrade L newId newTs f)) ∧
    (pyStrip f.symbol = "" →
      create_spec L newId newTs f = Except.error LedgerError.validation ∧
      addTrade L newId newTs f = L ++ [mkTrade newId newTs f]) := by
  refine ⟨rfl, rfl, rfl, rfl, rfl, ?_, ?_⟩
  · intro h1 h2 h3 h4
    unfold create_spec
    rw [if_neg h1, if_neg (not_not_intro h2), if_neg h3, if_neg h4]
  · intro h1
    refine ⟨?_, rfl⟩
    unfold create_spec
    rw [if_pos h1]

/-- Witness for C6 (amended) on a fully valid request: the handler
appends one OPEN record with a trimmed, upper-cased symbol and agrees
with the spec's create. -/
theorem C6_create_appends_without_symbol_validation_witness :
    ¬ pyStrip validForm.symbol = "" ∧
    addTrade [] "aaaa1111" "2025-08-14 09:30:00" validForm
      = [] ++ [mkTrade "aaaa1111" "2025-08-14 09:30:00" validForm] ∧
    (mkTrade "aaaa1111" "2025-08-14 09:30:00" validForm).status = "OPEN" ∧
    (mkTrade "aaaa1111" "2025-08-14 09:30:00" validForm).symbol = "MIDCPNIFTY" ∧
    create_spec [] "aaaa1111" "2025-08-14 09:30:00" validForm
      = Except.ok (addTrade [] "aaaa1111" "2025-08-14 09:30:00" validForm) :=
  ⟨by decide,
   (C6_create_appends_without_symbol_validation []
      "aaaa1111" "2025-08-14 09:30:00" validForm).1,
   (C6_create_appends_without_symbol_validation []
      "aaaa1111" "2025-08-14 09:30:00" validForm).2.1,
   by decide,
   (C6_create_appends_without_symbol_validation []
      "aaaa1111" "2025-08-14 09:30:00" validForm).2.2.2.2.2.1
     (by decide) (by decide) (by decide) (by decide)⟩

/-- Claim C7 counterexample: the source draws each id as
`str(uuid.uuid4())[:8]` — eight random hex characters — and never checks
it against existing ids.  The draw is an environment input of the create
operation, and nothing prevents the same eight characters from being
drawn twice; for such a sequence of two create calls the resulting
ledger has two positions with the same id, so "all resulting positions
have pairwise distinct ids" is false as stated. -/
theorem C7_counterexample :
    ¬ ((createSeq []
        [("aaaa1111", ("2025-08-14 09:30:00", validForm)),
         ("aaaa1111", ("2025-08-14 09:31:00", validForm))]).map Trade.id).Nodup := by
  rw [createSeq_ids]
  decide

/-- Claim C7 amended: the create operation never rewrites or reuses an
existing record's id — after any sequence of create calls the ledger's
ids are exactly the old ids followed by the drawn ids, in order — and
the resulting positions have pairwise distinct ids provided the drawn
ids are pairwise distinct and distinct from the existing ones; the code
itself performs no uniqueness check, so distinctness is inherited from
the draws, not guaranteed. -/
theorem C7_ids_are_the_draws (L : List Trade)
    (reqs : List (String × String × TradeForm)) :
    (createSeq L reqs).map Trade.id = L.map Trade.id ++ reqs.map (fun r => r.1) ∧
    ((L.map Trade.id ++ reqs.map (fun r => r.1)).Nodup →
      ((createSeq L reqs).map Trade.id).Nodup) := by
  refine ⟨createSeq_ids reqs L, ?_⟩
  intro h
  rw [createSeq_ids reqs L]
  exact h

/-- Witness for C7 (amended): two create calls with distinct drawn ids
yield a ledger with distinct ids. -/
theorem C7_ids_are_the_draws_witness :
    (([] : List Trade).map Trade.id
      ++ [("aaaa1111", ("2025-08-14 09:30:00", validForm)),
          ("bbbb2222", ("2025-08-14 09:31:00", validForm))].map
            (fun r => r.1)).Nodup ∧
    ((createSeq []
        [("aaaa1111", ("2025-08-14 09:30:00", validForm)),
         ("bbbb2222", ("2025-08-14 09:31:00", validForm))]).map Trade.id).Nodup :=
  ⟨by decide,
   (C7_ids_are_the_draws []
      [("aaaa1111", ("2025-08-14 09:30:00", validForm)),
       ("bbbb2222", ("2025-08-14 09:31:00", validForm))]).2 (by decide)⟩

end OptionsScalper
